import Mathlib

/-!
Shallow embedding of the iSmart backend server (src/server.js) and proofs
about its authentication, cooldown, withdrawal, admin and ledger logic.

Conventions of the embedding:
* An `initData` payload is modelled as the ordered list of decoded
  key/value pairs produced by `URLSearchParams`.
* `Object.fromEntries` keeps the LAST value of a duplicated key; this is
  captured by `lastLookup`.
* The HMAC-SHA256 primitive (keyed with the SHA-256 hash of the bot
  token) is an abstract function `hmacHex : String → String` producing a
  hex digest; the hash primitive itself is outside the program's logic.
* `JSON.parse` applied to the user descriptor is an abstract function
  `jsonParseUser : String → Option UserDescriptor`; `none` models a parse
  exception.  Each field of `UserDescriptor` is `none` when absent;
  `id` holds the result of JavaScript `String(user.id)` when present.
* JavaScript numbers are idealised as `ℤ`/`ℚ`; the `|0` coercion used by
  the withdraw handler is modelled exactly as 32-bit signed truncation.
-/

/-- Value associated to key `k` in an association list, where a LATER
binding shadows an earlier one — the semantics of
`Object.fromEntries(new URLSearchParams(s))` for duplicate keys. -/
def lastLookup (k : String) : List (String × String) → Option String
  | [] => none
  | (a, b) :: t =>
    match lastLookup k t with
    | some v => some v
    | none => if a = k then some b else none

/-- Distinct keys of the parsed payload with the `hash` field removed,
mirroring `const { hash, ...data } = parsed` followed by
`Object.keys(data)`. -/
def fieldKeys (pairs : List (String × String)) : List String :=
  ((pairs.map Prod.fst).dedup).filter (fun k => k ≠ "hash")

/-- `Object.keys(data).sort()`: the remaining keys in lexicographic
order. -/
def sortedKeys (pairs : List (String × String)) : List String :=
  List.insertionSort (· ≤ ·) (fieldKeys pairs)

/-- The data-check string: non-`hash` fields sorted by key, rendered as
`key=value` lines joined by newlines (src/server.js lines 27-30). -/
def dataCheckString (pairs : List (String × String)) : String :=
  String.intercalate "\n"
    ((sortedKeys pairs).map (fun k => k ++ "=" ++ ((lastLookup k pairs).getD "")))

/-- The JSON user descriptor embedded in the payload.  A `none` field is
absent from the JSON object; `id` is already stringified. -/
structure UserDescriptor where
  id : Option String
  first_name : Option String
  last_name : Option String
  username : Option String
deriving DecidableEq

/-- Failure modes of `verifyTelegramInitData`: `invalidSignature` is the
`return null` path (HTTP 401 "bad signature"); `malformedUser` is the
uncaught `JSON.parse` exception. -/
inductive VerifyError
  | invalidSignature
  | malformedUser
deriving DecidableEq

/-- The identity object returned on success (src/server.js lines 37-42). -/
structure Identity where
  id : String
  name : String
  username : String
  email : String
deriving DecidableEq

/-- The empty JSON object literal, the fallback argument of
`JSON.parse(data.user || ...)`. -/
def emptyJsonObject : String := "\x7b\x7d"

/-- `verifyTelegramInitData` (src/server.js lines 23-43), parameterised
by the abstract keyed hash `hmacHex` and JSON parser `jsonParseUser`.
A missing `hash` field compares unequal to the computed hex digest
(`hmac !== undefined` is always true for a string), hence is a mismatch.
On a signature match, `JSON.parse(data.user || '...')` runs: a missing or
empty `user` value parses the empty object; a parse exception surfaces as
`malformedUser`.  `String(user.id)` yields the sentinel `"undefined"`
when `id` is absent; the display name joins the truthy name parts and
falls back to `"Guest"`; a truthy username is prefixed with `"@"`. -/
def verifyTelegramInitData (hmacHex : String → String)
    (jsonParseUser : String → Option UserDescriptor)
    (pairs : List (String × String)) : Except VerifyError Identity :=
  let dcs := dataCheckString pairs
  match lastLookup "hash" pairs with
  | none => .error .invalidSignature
  | some h =>
    if hmacHex dcs = h then
      let userStr :=
        match lastLookup "user" pairs with
        | none => emptyJsonObject
        | some s => if s = "" then emptyJsonObject else s
      match jsonParseUser userStr with
      | none => .error .malformedUser
      | some u =>
        let parts := ([u.first_name, u.last_name].filterMap (fun x => x)).filter
          (fun s => s ≠ "")
        let joined := String.intercalate " " parts
        .ok
          { id := (u.id).getD "undefined"
            name := if joined = "" then "Guest" else joined
            username :=
              match u.username with
              | none => ""
              | some s => if s = "" then "" else "@" ++ s
            email := "" }
    else .error .invalidSignature

/-- Outcome of the server-side ad cooldown (src/server.js lines 91-95). -/
inductive CooldownOutcome
  | admitted
  | cooldown (left : ℤ)
deriving DecidableEq

/-- The cooldown check of `POST /api/reward/ad`: with `last = user.last_ad_at`
(milliseconds since epoch, `none` when unset) and `now` in milliseconds,
reject when `(now - last) / 1000 < COOLDOWN` with
`left = Math.ceil(COOLDOWN - (now - last) / 1000)`; otherwise admit. -/
def cooldownGate (cooldownSec : ℕ) (nowMs : ℤ) (lastMs : Option ℤ) : CooldownOutcome :=
  match lastMs with
  | none => .admitted
  | some l =>
    if ((nowMs - l : ℚ)) / 1000 < (cooldownSec : ℚ) then
      .cooldown ⌈(cooldownSec : ℚ) - ((nowMs - l : ℚ)) / 1000⌉
    else .admitted

/-- The mutable per-user row touched by the reward and withdraw handlers:
the `balance` and `last_ad_at` columns of the `users` table. -/
structure UsersRow where
  balance : ℤ
  last_ad_at : Option ℤ
deriving DecidableEq

/-- Progress of one in-flight `POST /api/reward/ad` handler.  The handler
performs two separate store round trips: a `select` (capturing `saved`)
and an unconditional `update`; the cooldown check runs in process against
the saved read. -/
inductive CreditPhase
  | start
  | readDone (saved : UsersRow)
  | done (granted : Bool)
deriving DecidableEq

/-- One atomic store action of the reward handler (src/server.js lines
89-99).  `start → readDone` is the `select`; `readDone → done` evaluates
the cooldown against the stale `saved` row and, if admitted, writes
`balance := saved.balance + reward` and `last_ad_at := now` — the written
balance is computed from the earlier read, not from the current row. -/
def creditStep (cooldownSec reward : ℕ) (nowMs : ℤ) :
    CreditPhase → UsersRow → CreditPhase × UsersRow
  | .start, row => (.readDone row, row)
  | .readDone saved, row =>
    match cooldownGate cooldownSec nowMs saved.last_ad_at with
    | .cooldown _ => (.done false, row)
    | .admitted =>
      (.done true, { balance := saved.balance + (reward : ℤ), last_ad_at := some nowMs })
  | .done g, row => (.done g, row)

/-- Interleaved execution of two request handlers `A` and `B` sharing the
store row: the schedule says which handler performs its next atomic store
action.  Each handler's individual actions are atomic; nothing else is. -/
def runTwo {σ : Type} (step : σ → UsersRow → σ × UsersRow) :
    List Bool → σ → σ → UsersRow → σ × σ × UsersRow
  | [], pa, pb, row => (pa, pb, row)
  | true :: rest, pa, pb, row =>
    let s := step pa row
    runTwo step rest s.1 pb s.2
  | false :: rest, pa, pb, row =>
    let s := step pb row
    runTwo step rest pa s.1 s.2

/-- Signed 32-bit truncation: the JavaScript `|0` coercion applied to an
integer. -/
def int32 (n : ℤ) : ℤ := (n + 2 ^ 31) % 2 ^ 32 - 2 ^ 31

/-- `minCoins = COINS_PER_USDT * MIN_WITHDRAW_USDT` (src/server.js line
113). -/
def minCoins (rate minUnits : ℕ) : ℤ := (rate : ℤ) * (minUnits : ℤ)

/-- Outcomes of the withdraw admission checks. -/
inductive WithdrawResult
  | belowMinimum
  | insufficientBalance
  | success
deriving DecidableEq

/-- The admission checks of `POST /api/withdraw` (src/server.js lines
116-117): `(amount_coins|0) < minCoins` rejects below-minimum first, then
`balance < amount_coins` (with the untruncated amount) rejects
insufficient balance. -/
def withdrawalAdmission (rate minUnits : ℕ) (amount balance : ℤ) : WithdrawResult :=
  if int32 amount < minCoins rate minUnits then .belowMinimum
  else if balance < amount then .insufficientBalance
  else .success

/-- Progress of one in-flight `POST /api/withdraw` handler: a `select`
round trip capturing `saved`, then the in-process admission checks
against the saved row followed by the `update`. -/
inductive DebitPhase
  | start
  | readDone (saved : UsersRow)
  | done (result : WithdrawResult)
deriving DecidableEq

/-- One atomic store action of the withdraw handler (src/server.js lines
115-122).  The sufficiency check uses the balance read earlier; on
success the handler writes `balance := saved.balance - amount`, again
computed from the stale read. -/
def debitStep (rate minUnits : ℕ) (amount : ℤ) :
    DebitPhase → UsersRow → DebitPhase × UsersRow
  | .start, row => (.readDone row, row)
  | .readDone saved, row =>
    match withdrawalAdmission rate minUnits amount saved.balance with
    | .belowMinimum => (.done .belowMinimum, row)
    | .insufficientBalance => (.done .insufficientBalance, row)
    | .success => (.done .success, { row with balance := saved.balance - amount })
  | .done r, row => (.done r, row)

/-- A row of the `withdraw_requests` table (the columns the admin handler
touches). -/
structure WithdrawRequest where
  id : String
  user_id : String
  status : String
deriving DecidableEq

/-- Outcome of the admin approval handler. -/
inductive AdminOutcome
  | forbidden
  | badAction
  | ok
deriving DecidableEq

/-- `POST /api/admin/withdraw/:id/:action` (src/server.js lines 128-138):
403 unless the caller id is in the configured admin list, 400 unless the
action is `approve` or `reject`, otherwise set `status := action` on
every request whose id matches — with no guard on the current status. -/
def adminWithdrawAction (adminIds : List String) (admin : String)
    (reqId action : String) (reqs : List WithdrawRequest) :
    AdminOutcome × List WithdrawRequest :=
  if admin ∈ adminIds then
    if action = "approve" ∨ action = "reject" then
      (.ok, reqs.map fun r => if r.id = reqId then { r with status := action } else r)
    else (.badAction, reqs)
  else (.forbidden, reqs)

/-- A full row of the `users` table. -/
structure UserRecord where
  id : String
  name : String
  username : String
  email : String
  balance : ℤ
  last_ad_at : Option ℤ
deriving DecidableEq

/-- The store's `upsert` with `onConflict: 'id'` applied to the payload
of `POST /api/auth` (src/server.js lines 69-71): insert a new row, or on
an id conflict update exactly the supplied columns `id`, `name`,
`username`, `email`, leaving every other column of the row untouched. -/
def upsertUser (users : List UserRecord) (ident : Identity) : List UserRecord :=
  if users.any fun u => u.id = ident.id then
    users.map fun u =>
      if u.id = ident.id then
        { u with name := ident.name, username := ident.username, email := ident.email }
      else u
  else
    users ++ [{ id := ident.id, name := ident.name, username := ident.username,
                email := ident.email, balance := 0, last_ad_at := none }]

/-- `POST /api/auth` (src/server.js lines 62-75): verify the payload;
on failure no store write happens, on success upsert the identity
columns. -/
def postAuth (hmacHex : String → String)
    (jsonParseUser : String → Option UserDescriptor)
    (users : List UserRecord) (pairs : List (String × String)) :
    Option Identity × List UserRecord :=
  match verifyTelegramInitData hmacHex jsonParseUser pairs with
  | .error _ => (none, users)
  | .ok ident => (some ident, upsertUser users ident)

/-- C1: the verifier rejects with `invalidSignature` exactly when the
payload's `hash` field is absent or differs from the computed digest. -/
theorem verify_signature_gate (hmacHex : String → String)
    (jsonParseUser : String → Option UserDescriptor)
    (pairs : List (String × String)) :
    (verifyTelegramInitData hmacHex jsonParseUser pairs = .error .invalidSignature ↔
      lastLookup "hash" pairs ≠ some (hmacHex (dataCheckString pairs))) ∧
    (lastLookup "hash" pairs = none →
      verifyTelegramInitData hmacHex jsonParseUser pairs = .error .invalidSignature) := by
  constructor
  · unfold verifyTelegramInitData
    cases hh : lastLookup "hash" pairs with
    | none => simp
    | some h =>
      by_cases he : hmacHex (dataCheckString pairs) = h
      · subst he
        simp only [if_pos rfl]
        cases hp : jsonParseUser
            (match lastLookup "user" pairs with
             | none => emptyJsonObject
             | some s => if s = "" then emptyJsonObject else s) with
        | none => simp
        | some u => simp
      · simp only [if_neg he]
        simp only [ne_eq, Option.some.injEq, true_iff]
        exact fun hc => he hc.symm
  · intro hn
    unfold verifyTelegramInitData
    rw [hn]

/-- C2: the reward credit is not an atomic read-modify-write.  Two
concurrent credit(+1) calls on a user with balance 0 and no prior ad,
interleaved as A.read, B.read, A.write, B.write, both report success yet
leave the balance at 1, not 2: B's write stores the stale
`saved.balance + 1`, losing A's update. -/
theorem credit_lost_update :
    runTwo (creditStep 10 1 100000) [true, false, true, false]
        CreditPhase.start CreditPhase.start { balance := 0, last_ad_at := none } =
      (CreditPhase.done true, CreditPhase.done true,
        { balance := 1, last_ad_at := some 100000 }) ∧
    (runTwo (creditStep 10 1 100000) [true, false, true, false]
        CreditPhase.start CreditPhase.start
        { balance := 0, last_ad_at := none }).2.2.balance ≠ 2 := by
  decide

/-- C3: the withdraw sufficiency check happens at read time, not commit
time.  Two concurrent debit(2000) calls against balance 2000, interleaved
as A.read, B.read, A.check+write, B.check+write, BOTH succeed (each saw
the stale balance 2000), instead of exactly one success and one
insufficient-balance rejection. -/
theorem debit_double_success :
    runTwo (debitStep 100 20 2000) [true, false, true, false]
        DebitPhase.start DebitPhase.start { balance := 2000, last_ad_at := none } =
      (DebitPhase.done .success, DebitPhase.done .success,
        { balance := 0, last_ad_at := none }) := by
  decide

/-- C4: a correctly signed payload with no `user` field is not rejected:
`JSON.parse(data.user || ...)` yields the empty object and
`String(user.id)` the sentinel string "undefined", so the verifier
returns an identity with id "undefined" and name "Guest" instead of
failing with a malformed-user error. -/
theorem verify_missing_user_yields_sentinel :
    verifyTelegramInitData (fun _ => "sig")
        (fun s => if s = emptyJsonObject then
            some { id := none, first_name := none, last_name := none, username := none }
          else none)
        [("auth_date", "1"), ("hash", "sig")] =
      .ok { id := "undefined", name := "Guest", username := "", email := "" } := by
  rfl

/-- C6 counterexample: the below-minimum check truncates the amount with
`|0`.  At amount = balance = 2^32 + 1999 the claim says the request is
admitted (amount ≥ minCoins = 2000 and amount ≤ balance), but the code
rejects it as below minimum because `(2^32 + 1999)|0 = 1999`. -/
theorem withdrawal_truncation_counterexample :
    withdrawalAdmission 100 20 4294969295 4294969295 = .belowMinimum ∧
    ¬ ((4294969295 : ℤ) < minCoins 100 20) ∧
    ¬ ((4294969295 : ℤ) > (4294969295 : ℤ)) := by
  refine ⟨?_, by decide, by decide⟩
  decide

theorem int32_eq_self (n : ℤ) (h1 : -(2 ^ 31) ≤ n) (h2 : n < 2 ^ 31) : int32 n = n := by
  unfold int32
  rw [Int.emod_eq_of_lt (by omega) (by omega)]
  omega

theorem lastLookup_perm {l₁ l₂ : List (String × String)} (hp : l₁.Perm l₂)
    (hn : (l₁.map Prod.fst).Nodup) (k : String) :
    lastLookup k l₁ = lastLookup k l₂ := by
  induction hp with
  | nil => rfl
  | cons x h ih =>
    simp only [List.map_cons, List.nodup_cons] at hn
    simp only [lastLookup, ih hn.2]
  | swap x y l =>
    have hxy : y.1 ≠ x.1 := by
      simp only [List.map_cons, List.nodup_cons, List.mem_cons] at hn
      exact fun he => hn.1 (Or.inl he)
    simp only [lastLookup]
    cases hll : lastLookup k l with
    | some v => rfl
    | none =>
      by_cases hx : x.1 = k
      · by_cases hy : y.1 = k
        · exact absurd (hy.trans hx.symm) hxy
        · simp [hx, hy]
      · by_cases hy : y.1 = k
        · simp [hx, hy]
        · simp [hx, hy]
  | trans h₁ h₂ ih₁ ih₂ =>
    exact (ih₁ hn).trans (ih₂ ((h₁.map Prod.fst).nodup_iff.mp hn))

theorem fieldKeys_perm {l₁ l₂ : List (String × String)} (hp : l₁.Perm l₂) :
    (fieldKeys l₁).Perm (fieldKeys l₂) :=
  ((hp.map Prod.fst).dedup).filter _

theorem sortedKeys_perm {l₁ l₂ : List (String × String)} (hp : l₁.Perm l₂) :
    sortedKeys l₁ = sortedKeys l₂ := by
  refine List.eq_of_perm_of_sorted (r := (· ≤ · : String → String → Prop))
    (((List.perm_insertionSort _ _).trans (fieldKeys_perm hp)).trans
      (List.perm_insertionSort _ _).symm)
    (List.sorted_insertionSort _ _) (List.sorted_insertionSort _ _)

theorem dataCheckString_perm {l₁ l₂ : List (String × String)} (hp : l₁.Perm l₂)
    (hn : (l₁.map Prod.fst).Nodup) :
    dataCheckString l₁ = dataCheckString l₂ := by
  unfold dataCheckString
  rw [sortedKeys_perm hp]
  congr 1
  apply List.map_congr_left
  intro k _
  rw [lastLookup_perm hp hn k]

/-- C5: the cooldown gate admits iff the last ad time is absent or at
least `cooldownSec` seconds (i.e. `1000 * cooldownSec` ms) have elapsed;
otherwise it rejects with remaining = ceiling of the seconds still
missing, which is always at least 1 — a blocked caller is never told 0;
in particular cooldown 10 s with 5 s elapsed rejects with 5 left, 10 s
elapsed admits, and an absent last ad time admits. -/
theorem cooldownGate_spec (cooldownSec : ℕ) (nowMs l : ℤ) :
    cooldownGate cooldownSec nowMs none = .admitted ∧
    (cooldownGate cooldownSec nowMs (some l) = .admitted ↔
      (1000 : ℤ) * (cooldownSec : ℤ) ≤ nowMs - l) ∧
    (nowMs - l < (1000 : ℤ) * (cooldownSec : ℤ) →
      cooldownGate cooldownSec nowMs (some l) =
        .cooldown ⌈(cooldownSec : ℚ) - ((nowMs - l : ℤ) : ℚ) / 1000⌉ ∧
      1 ≤ ⌈(cooldownSec : ℚ) - ((nowMs - l : ℤ) : ℚ) / 1000⌉) ∧
    cooldownGate 10 5000 (some 0) = .cooldown 5 ∧
    cooldownGate 10 10000 (some 0) = .admitted := by
  have h1000 : (0 : ℚ) < 1000 := by norm_num
  refine ⟨rfl, ?_, ?_, ?_, ?_⟩
  · simp only [cooldownGate]
    rcases lt_or_le (((nowMs : ℚ) - (l : ℚ)) / 1000) (cooldownSec : ℚ) with h | h
    · rw [if_pos h]
      constructor
      · intro hc; simp at hc
      · intro hge
        exfalso
        rw [div_lt_iff₀ h1000] at h
        have h2 : ((nowMs - l : ℤ) : ℚ) < (((1000 : ℤ) * (cooldownSec : ℤ) : ℤ) : ℚ) := by
          push_cast
          linarith
        exact absurd (by exact_mod_cast h2) (not_lt.mpr hge)
    · rw [if_neg (not_lt.mpr h)]
      simp only [true_iff]
      rw [le_div_iff₀ h1000] at h
      have h2 : (((1000 : ℤ) * (cooldownSec : ℤ) : ℤ) : ℚ) ≤ ((nowMs - l : ℤ) : ℚ) := by
        push_cast
        linarith
      exact_mod_cast h2
  · intro hlt
    have hq : ((nowMs : ℚ) - (l : ℚ)) / 1000 < (cooldownSec : ℚ) := by
      rw [div_lt_iff₀ h1000]
      have h2 : ((nowMs - l : ℤ) : ℚ) < (((1000 : ℤ) * (cooldownSec : ℤ) : ℤ) : ℚ) := by
        exact_mod_cast hlt
      push_cast at h2 ⊢
      linarith
    constructor
    · simp only [cooldownGate]
      rw [if_pos hq]
      push_cast
      ring_nf
    · have hpos : (0 : ℚ) < (cooldownSec : ℚ) - ((nowMs - l : ℤ) : ℚ) / 1000 := by
        push_cast
        linarith
      have hc := Int.ceil_pos.mpr hpos
      omega
  · simp only [cooldownGate]
    norm_num
  · simp only [cooldownGate]
    norm_num

theorem cooldownGate_spec_witness :
    cooldownGate 10 7000 (some 0) =
      .cooldown ⌈((10 : ℕ) : ℚ) - ((7000 - 0 : ℤ) : ℚ) / 1000⌉ ∧
    1 ≤ ⌈((10 : ℕ) : ℚ) - ((7000 - 0 : ℤ) : ℚ) / 1000⌉ :=
  (cooldownGate_spec 10 7000 0).2.2.1 (by decide)

theorem verify_signature_gate_witness :
    verifyTelegramInitData (fun _ => "aa") (fun _ => none) [("a", "1")] =
      .error .invalidSignature :=
  (verify_signature_gate (fun _ => "aa") (fun _ => none) [("a", "1")]).2 rfl

/-- C6 (amended): for amounts within the signed 32-bit range the
admission is exactly as specified — below-minimum first (independently of
the balance), then insufficient balance, else admitted — and the three
concrete cases of the spec hold; outside that range the `|0` truncation
departs from the claim (see the counterexample). -/
theorem withdrawalAdmission_spec (rate minUnits : ℕ) (amount balance : ℤ)
    (h1 : -(2 ^ 31) ≤ amount) (h2 : amount < 2 ^ 31) :
    (withdrawalAdmission rate minUnits amount balance = .belowMinimum ↔
      amount < minCoins rate minUnits) ∧
    (¬ amount < minCoins rate minUnits →
      (withdrawalAdmission rate minUnits amount balance = .insufficientBalance ↔
        balance < amount)) ∧
    (¬ amount < minCoins rate minUnits → ¬ balance < amount →
      withdrawalAdmission rate minUnits amount balance = .success) ∧
    withdrawalAdmission 100 20 1999 5000 = .belowMinimum ∧
    withdrawalAdmission 100 20 2000 2000 = .success ∧
    withdrawalAdmission 100 20 2000 1999 = .insufficientBalance := by
  have hi : int32 amount = amount := int32_eq_self amount h1 h2
  refine ⟨?_, ?_, ?_, by decide, by decide, by decide⟩
  · unfold withdrawalAdmission
    rw [hi]
    by_cases hb : amount < minCoins rate minUnits
    · simp [hb]
    · by_cases hc : balance < amount
      · simp [hb, hc]
      · simp [hb, hc]
  · intro hb
    unfold withdrawalAdmission
    rw [hi, if_neg hb]
    by_cases hc : balance < amount
    · simp [hc]
    · simp [hc]
  · intro hb hc
    unfold withdrawalAdmission
    rw [hi, if_neg hb, if_neg hc]

theorem withdrawalAdmission_spec_witness :
    withdrawalAdmission 100 20 2000 2000 = .success :=
  (withdrawalAdmission_spec 100 20 2000 2000 (by decide) (by decide)).2.2.1
    (by decide) (by decide)

/-- C7: permuting the payload's fields (each key occurring once) leaves
the data-check string, hence the computed signature and the whole
verification outcome, unchanged. -/
theorem canonicalization_order_independent (hmacHex : String → String)
    (jsonParseUser : String → Option UserDescriptor)
    (l₁ l₂ : List (String × String)) (hp : l₁.Perm l₂)
    (hn : (l₁.map Prod.fst).Nodup) :
    dataCheckString l₁ = dataCheckString l₂ ∧
    verifyTelegramInitData hmacHex jsonParseUser l₁ =
      verifyTelegramInitData hmacHex jsonParseUser l₂ := by
  refine ⟨dataCheckString_perm hp hn, ?_⟩
  unfold verifyTelegramInitData
  rw [dataCheckString_perm hp hn, lastLookup_perm hp hn "hash",
    lastLookup_perm hp hn "user"]

theorem canonicalization_order_independent_witness :
    dataCheckString [("b", "2"), ("a", "1")] = dataCheckString [("a", "1"), ("b", "2")] ∧
    verifyTelegramInitData (fun _ => "h") (fun _ => none) [("b", "2"), ("a", "1")] =
      verifyTelegramInitData (fun _ => "h") (fun _ => none) [("a", "1"), ("b", "2")] :=
  canonicalization_order_independent (fun _ => "h") (fun _ => none)
    [("b", "2"), ("a", "1")] [("a", "1"), ("b", "2")] (by decide) (by decide)

/-- C8: the admin approval handler answers Forbidden to any caller
outside the configured admin list, whatever the action; an allow-listed
caller with an action outside approve/reject gets BadAction. -/
theorem adminGate_spec (adminIds : List String) (admin reqId action : String)
    (reqs : List WithdrawRequest) :
    (admin ∉ adminIds →
      (adminWithdrawAction adminIds admin reqId action reqs).1 = .forbidden) ∧
    (admin ∈ adminIds → action ≠ "approve" → action ≠ "reject" →
      (adminWithdrawAction adminIds admin reqId action reqs).1 = .badAction) := by
  constructor
  · intro h
    unfold adminWithdrawAction
    rw [if_neg h]
  · intro h h1 h2
    unfold adminWithdrawAction
    rw [if_pos h, if_neg (not_or.mpr ⟨h1, h2⟩)]

theorem adminGate_spec_witness :
    (adminWithdrawAction ["7"] "9" "1" "approve" []).1 = .forbidden ∧
    (adminWithdrawAction ["7"] "7" "1" "frobnicate" []).1 = .badAction :=
  ⟨(adminGate_spec ["7"] "9" "1" "approve" []).1 (by decide),
   (adminGate_spec ["7"] "7" "1" "frobnicate" []).2 (by decide) (by decide) (by decide)⟩

/-- C9: once past the admin and action gates, the handler sets
`status := action` on every matching request with no guard on the current
status — an already approved or rejected request is silently
overwritten. -/
theorem adminApproval_overwrites (adminIds : List String)
    (admin reqId action : String) (reqs : List WithdrawRequest)
    (hadm : admin ∈ adminIds) (hact : action = "approve" ∨ action = "reject") :
    (adminWithdrawAction adminIds admin reqId action reqs).1 = .ok ∧
    ∀ r ∈ reqs, r.id = reqId →
      { r with status := action } ∈ (adminWithdrawAction adminIds admin reqId action reqs).2 := by
  unfold adminWithdrawAction
  rw [if_pos hadm, if_pos hact]
  refine ⟨rfl, ?_⟩
  intro r hr hid
  exact List.mem_map.mpr ⟨r, hr, by rw [if_pos hid]⟩

theorem adminApproval_overwrites_witness :
    (adminWithdrawAction ["7"] "7" "42" "reject"
      [{ id := "42", user_id := "u", status := "approved" }]).1 = .ok ∧
    ({ id := "42", user_id := "u", status := "reject"} : WithdrawRequest) ∈
      (adminWithdrawAction ["7"] "7" "42" "reject"
        [{ id := "42", user_id := "u", status := "approved" }]).2 :=
  ⟨(adminApproval_overwrites ["7"] "7" "42" "reject"
      [{ id := "42", user_id := "u", status := "approved" }] (by decide) (Or.inr rfl)).1,
   (adminApproval_overwrites ["7"] "7" "42" "reject"
      [{ id := "42", user_id := "u", status := "approved" }] (by decide) (Or.inr rfl)).2
     { id := "42", user_id := "u", status := "approved" } (by decide) rfl⟩

/-- C10: a successful authentication of an already-existing user upserts
only the identity columns; every user's `balance` and `last_ad_at` are
exactly what they were before the call. -/
theorem postAuth_preserves_balance (hmacHex : String → String)
    (jsonParseUser : String → Option UserDescriptor) (users : List UserRecord)
    (pairs : List (String × String)) (ident : Identity)
    (hok : (postAuth hmacHex jsonParseUser users pairs).1 = some ident)
    (hex : ∃ u ∈ users, u.id = ident.id) :
    ((postAuth hmacHex jsonParseUser users pairs).2.map
        fun u => (u.balance, u.last_ad_at)) =
      users.map fun u => (u.balance, u.last_ad_at) := by
  cases hv : verifyTelegramInitData hmacHex jsonParseUser pairs with
  | error e =>
    exfalso
    unfold postAuth at hok
    rw [hv] at hok
    simp at hok
  | ok v =>
    unfold postAuth at hok ⊢
    rw [hv] at hok ⊢
    simp only [Option.some.injEq] at hok
    subst hok
    show ((upsertUser users v).map fun u => (u.balance, u.last_ad_at)) =
      users.map fun u => (u.balance, u.last_ad_at)
    unfold upsertUser
    rw [if_pos ?hany]
    case hany =>
      obtain ⟨u, hu, hid⟩ := hex
      exact List.any_eq_true.mpr ⟨u, hu, decide_eq_true hid⟩
    rw [List.map_map]
    apply List.map_congr_left
    intro u _
    by_cases hid : u.id = v.id
    · simp [Function.comp, hid]
    · simp [Function.comp, hid]

theorem postAuth_preserves_balance_witness :
    ((postAuth (fun _ => "h")
        (fun _ => some { id := some "1", first_name := some "Ann",
                         last_name := none, username := none })
        [{ id := "1", name := "Old", username := "", email := "",
           balance := 50, last_ad_at := some 5 }]
        [("user", "x"), ("hash", "h")]).2.map
      fun u => (u.balance, u.last_ad_at)) =
      [((50 : ℤ), some (5 : ℤ))] :=
  postAuth_preserves_balance (fun _ => "h")
    (fun _ => some { id := some "1", first_name := some "Ann",
                     last_name := none, username := none })
    [{ id := "1", name := "Old", username := "", email := "",
       balance := 50, last_ad_at := some 5 }]
    [("user", "x"), ("hash", "h")]
    { id := "1", name := "Ann", username := "", email := "" }
    rfl ⟨_, List.mem_singleton.mpr rfl, rfl⟩
